import Mathlib

/-!
Shallow embedding of the write-path orchestration core of the distributed
database simulator backend (src/backend/server.js): query classification,
the per-key Active Write Marker (lock manager and read gate), the
fragmentation-aware replication engine, the replication ledger with replay
on node recovery, and the `/api/query/execute` coordinator.

Modelling conventions:
- The three MySQL nodes are the enumeration `Node` (node0 master, node1
  fragment A, node2 fragment B).
- Dates are epoch milliseconds as `Int` (the fragment boundary
  `new Date('1997-01-01T00:00:00Z')` is `852076800000`).
- The polling loops (`startTransaction`, `canReadProceed`) sleep 50 ms per
  iteration and compare elapsed real time against `TRANSACTION_TIMEOUT`.
  We idealise elapsed time as `polls * POLL_INTERVAL` and expose the
  presence of the Active Write Marker at each poll as an external schedule
  `present : Nat → Bool` (the marker is cleared by other, concurrently
  running requests; poll 0 is the initial check).
- Effects of the external store (`conn.query`) are oracles:
  `Except String _` values for each attempted statement.
-/

namespace DistDB

/-- The three database nodes of the system (node0 = master/central,
node1 = fragment A, node2 = fragment B). -/
inductive Node where
  | node0
  | node1
  | node2
deriving DecidableEq, Repr

/-- The string name of a node, as used in error messages. -/
def Node.name : Node → String
  | .node0 => "node0"
  | .node1 => "node1"
  | .node2 => "node2"

/-! ### Query text helpers (`parseTransId`, `isWriteQuery`) -/

/-- `\d` of the regex: ASCII decimal digits. -/
def isDigitChar (c : Char) : Bool :=
  '0' ≤ c && c ≤ '9'

/-- `\s` of the regex and the whitespace trimmed by `String.prototype.trim`,
modelled by its ASCII members (space, tab, newline, vertical tab, form
feed, carriage return). -/
def isSpaceChar (c : Char) : Bool :=
  c = ' ' || c = '\t' || c = '\n' || c = '\x0b' || c = '\x0c' || c = '\r'

/-- Case-insensitive character comparison (the `/i` regex flag). -/
def charCI (a b : Char) : Bool :=
  a.toLower = b.toLower

/-- Match a literal pattern case-insensitively at the head of the input,
returning the remaining input on success. -/
def matchCI : List Char → List Char → Option (List Char)
  | [], rest => some rest
  | _ :: _, [] => none
  | p :: ps, c :: cs => if charCI p c then matchCI ps cs else none

/-- `\s*`: drop leading whitespace. -/
def skipSpaces : List Char → List Char
  | [] => []
  | c :: cs => if isSpaceChar c then skipSpaces cs else c :: cs

/-- `\s+`: require at least one whitespace character, then drop the run. -/
def skipSpaces1 : List Char → Option (List Char)
  | [] => none
  | c :: cs => if isSpaceChar c then some (skipSpaces cs) else none

/-- Read a maximal run of digits into an accumulator (the `parseInt` of the
captured `\d+` group). -/
def readDigits : List Char → Nat → Nat × List Char
  | [], acc => (acc, [])
  | c :: cs, acc =>
    if isDigitChar c then readDigits cs (acc * 10 + (c.toNat - '0'.toNat))
    else (acc, c :: cs)

/-- Try to match `WHERE\s+trans_id\s*=\s*(\d+)` (case-insensitively) at the
current position, returning the captured number. -/
def matchTransIdAt (cs : List Char) : Option Nat :=
  match matchCI "where".toList cs with
  | none => none
  | some r1 =>
    match skipSpaces1 r1 with
    | none => none
    | some r2 =>
      match matchCI "trans_id".toList r2 with
      | none => none
      | some r3 =>
        match skipSpaces r3 with
        | '=' :: r4 =>
          match skipSpaces r4 with
          | [] => none
          | c :: r5 =>
            if isDigitChar c then some (readDigits r5 (c.toNat - '0'.toNat)).1
            else none
        | _ => none

/-- `RegExp.exec`: scan left to right for the first position where the
pattern matches. -/
def scanTransId : List Char → Option Nat
  | [] => none
  | c :: cs =>
    match matchTransIdAt (c :: cs) with
    | some n => some n
    | none => scanTransId cs

/-- `parseTransId(query)`: extract the record key from
`WHERE trans_id = <number>` (case-insensitive), `none` when the pattern
does not occur (server.js lines 101-104). -/
def parseTransId (query : String) : Option Nat :=
  scanTransId query.toList

/-- `String.prototype.trim`. -/
def jsTrim (cs : List Char) : List Char :=
  ((cs.dropWhile (fun c => isSpaceChar c)).reverse.dropWhile
    (fun c => isSpaceChar c)).reverse

/-- `isWriteQuery(query)`: the trimmed, upper-cased text starts with
`UPDATE`, `INSERT` or `DELETE` (server.js lines 106-109; the same check is
inlined at the top of `replicateWrite`). -/
def isWriteQuery (query : String) : Bool :=
  let upper := (jsTrim query.toList).map Char.toUpper
  "UPDATE".toList.isPrefixOf upper || "INSERT".toList.isPrefixOf upper
    || "DELETE".toList.isPrefixOf upper

/-! ### Lock manager and read gate (polling waits) -/

/-- `TRANSACTION_TIMEOUT = 5000` ms (server.js line 99). -/
def TRANSACTION_TIMEOUT : Nat := 5000

/-- The fixed polling interval: `setTimeout(resolve, 50)`. -/
def POLL_INTERVAL : Nat := 50

/-- The largest poll index at which the loops still act: the timeout check
`elapsed > TRANSACTION_TIMEOUT` first fires at poll `maxPolls`
(elapsed `maxPolls * POLL_INTERVAL = 5050 > 5000`), and a marker observed
clear at poll `maxPolls` is still taken. -/
def maxPolls : Nat := TRANSACTION_TIMEOUT / POLL_INTERVAL + 1

/-- One polling wait loop
(`while (marker present) { if (elapsed > TIMEOUT) throw; sleep 50 }`),
fuel-indexed: at poll `k` the elapsed time is `k * POLL_INTERVAL`.
Returns `some k` when the marker is observed clear at poll `k`, `none` on
timeout. The fuel given by `waitForClear` always suffices: the loop body
recurses only while `k * POLL_INTERVAL ≤ TRANSACTION_TIMEOUT`. -/
def waitForClearFuel (present : Nat → Bool) : Nat → Nat → Option Nat
  | 0, _ => none
  | fuel + 1, k =>
    if present k then
      if k * POLL_INTERVAL > TRANSACTION_TIMEOUT then none
      else waitForClearFuel present fuel (k + 1)
    else some k

/-- Wait until the Active Write Marker clears, starting at poll 0 (the
initial presence check and the first loop check read the same state: no
interleaving can happen between them on the single-threaded event loop). -/
def waitForClear (present : Nat → Bool) : Option Nat :=
  waitForClearFuel present (maxPolls + 1) 0

/-- An Active Write Marker: `activeTransactions[transId] = { node, startTime }`. -/
structure WriteMarker where
  node : Node
  startTime : Nat
deriving DecidableEq, Repr

/-- `startTransaction(transId, node)` (server.js lines 137-156) for a
non-null `transId` (the null guard `if (!transId) return` lives in the
caller's condition, see `gatePhase`): wait for any existing marker on
the key to clear (bounded by `TRANSACTION_TIMEOUT`), then install our
own marker. `.ok (k, m)` means the marker `m` was installed after `k`
polls; `.error` is the thrown lock timeout, in which case no marker is
installed for this requester. -/
def startTransaction (transId : Nat) (present : Nat → Bool) (node : Node)
    (now : Nat) : Except String (Nat × WriteMarker) :=
  match waitForClear present with
  | some k => .ok (k, { node := node, startTime := now })
  | none => .error ("Transaction " ++ toString transId
      ++ ": Timeout waiting for concurrent write to complete")

/-- `canReadProceed(transId, isolationLevel)` (server.js lines 112-134).
`.ok k` means the read is admitted after `k` polls; `.error` is the thrown
read timeout. -/
def canReadProceed (transId : Option Nat) (present : Nat → Bool)
    (isolationLevel : String) : Except String Nat :=
  if transId.isNone || !present 0 then .ok 0
  else if isolationLevel = "READ_UNCOMMITTED" then .ok 0
  else
    match waitForClear present with
    | some k => .ok k
    | none => .error (isolationLevel ++ ": Timeout waiting for transaction")

/-- Whether an admission/acquisition call returned without throwing. -/
def proceeds {α : Type} : Except String α → Bool
  | .ok _ => true
  | .error _ => false

/-! ### Replication engine and ledger -/

/-- Status of a Replication Entry. -/
inductive ReplicationStatus where
  | pending
  | replicated
  | failed
deriving DecidableEq, Repr

/-- A Replication Entry of the ledger (`replicationQueue`). `id` is the
uuid (abstracted as the entry's creation index), `time`/`recoveryTime` are
timestamps in epoch milliseconds. -/
structure ReplicationEntry where
  id : Nat
  source : Node
  target : Node
  query : String
  status : ReplicationStatus
  error : Option String
  time : Nat
  recoveryTime : Option Nat
deriving DecidableEq, Repr

/-- `FRAG_BOUNDARY = new Date('1997-01-01T00:00:00Z')` in epoch ms. -/
def FRAG_BOUNDARY : Int := 852076800000

/-- The target-set computation of `replicateWrite` (server.js lines
192-202): the master routes to the fragment selected by the fragmentation
rule, or to both fragments when the record date could not be resolved;
a fragment routes back to the master. -/
def replicationTargets (sourceNode : Node) (recordDate : Option Int) :
    List Node :=
  if sourceNode = Node.node0 then
    match recordDate with
    | some d => [if d < FRAG_BOUNDARY then Node.node1 else Node.node2]
    | none => [Node.node1, Node.node2]
  else
    [Node.node0]

/-- The record date `replicateWrite` resolves (lines 174-189): the
`SELECT newdate FROM trans WHERE trans_id = ?` read-back is attempted only
when a `trans_id` was parsed; `fetchedDate` is the oracle for its outcome
(`none` when the row is absent or the fetch threw — both leave
`recordDate = null`). -/
def resolvedRecordDate (query : String) (fetchedDate : Option Int) :
    Option Int :=
  match parseTransId query with
  | some _ => fetchedDate
  | none => none

/-- Per-target body of the replication loop (lines 207-251).
If the target's fault-injection flag is set, a `failed` entry is
synthesized immediately and no apply is attempted (second component
`false`); otherwise the entry is created `pending`, the operation is
attempted against the target's store (oracle `applyOutcome`), and the
status becomes `replicated` or `failed` accordingly. -/
def replicateEntry (sourceNode : Node) (query : String)
    (failures : Node → Bool) (applyOutcome : Node → Except String Unit)
    (eid : Nat) (now : Nat) (target : Node) : ReplicationEntry × Bool :=
  if failures target then
    ({ id := eid, source := sourceNode, target := target, query := query,
       status := .failed,
       error := some ("Node " ++ target.name ++ " is offline (simulated failure)"),
       time := now, recoveryTime := none }, false)
  else
    let entry : ReplicationEntry :=
      { id := eid, source := sourceNode, target := target, query := query,
        status := .pending, error := none, time := now, recoveryTime := none }
    match applyOutcome target with
    | .ok _ => ({ entry with status := .replicated }, true)
    | .error e => ({ entry with status := .failed, error := some e }, true)

/-- The replication loop over the target list: produced entries in order,
and the list of targets actually attempted. -/
def replicateLoop (sourceNode : Node) (query : String)
    (failures : Node → Bool) (applyOutcome : Node → Except String Unit)
    (now : Nat) : List Node → Nat → List ReplicationEntry × List Node
  | [], _ => ([], [])
  | target :: rest, eid =>
    let step := replicateEntry sourceNode query failures applyOutcome eid now target
    let tail := replicateLoop sourceNode query failures applyOutcome now rest (eid + 1)
    (step.1 :: tail.1, if step.2 then target :: tail.2 else tail.2)

/-- `replicateWrite(sourceNode, query)` (server.js lines 167-254).
Returns the new ledger, the produced entries (each of which the source
pushes both to `replicationQueue` and to `results`), and the list of
targets against which an apply was attempted. Non-write queries produce
nothing. -/
def replicateWrite (sourceNode : Node) (query : String)
    (fetchedDate : Option Int) (failures : Node → Bool)
    (applyOutcome : Node → Except String Unit)
    (queue : List ReplicationEntry) (now : Nat) :
    List ReplicationEntry × List ReplicationEntry × List Node :=
  if !isWriteQuery query then (queue, [], [])
  else
    let recordDate := resolvedRecordDate query fetchedDate
    let targets := replicationTargets sourceNode recordDate
    let run := replicateLoop sourceNode query failures applyOutcome now targets queue.length
    (queue ++ run.1, run.1, run.2)

/-! ### Replay after recovery -/

/-- The selection predicate of `replayFailedReplications`:
`entry.target === recoveredNode && entry.status === 'failed'`. -/
def isFailedFor (node : Node) (e : ReplicationEntry) : Bool :=
  e.target == node && e.status == ReplicationStatus.failed

/-- One detail record of the replay summary. -/
structure ReplayDetail where
  id : Nat
  query : String
  ok : Bool
  error : Option String
deriving DecidableEq, Repr

/-- The summary returned by `replayFailedReplications`. -/
structure ReplayResults where
  total : Nat
  success : Nat
  failed : Nat
  details : List ReplayDetail
deriving DecidableEq, Repr

/-- In-place mutation of the ledger entries during replay (server.js lines
271-302): the `j`-th selected entry (in append order) is reapplied with
outcome `outcome j`; on success it becomes `replicated` with its error
cleared and a recovery time stamped, on failure the entry object is left
untouched (the new error goes only into the returned details). -/
def replayQueue (node : Node) (outcome : Nat → Except String Unit)
    (now : Nat) : List ReplicationEntry → Nat → List ReplicationEntry
  | [], _ => []
  | e :: rest, j =>
    if isFailedFor node e then
      match outcome j with
      | .ok _ =>
        { e with status := .replicated, error := none, recoveryTime := some now }
          :: replayQueue node outcome now rest (j + 1)
      | .error _ => e :: replayQueue node outcome now rest (j + 1)
    else
      e :: replayQueue node outcome now rest j

/-- The counters and details accumulated over the selected entries. -/
def replayStats (outcome : Nat → Except String Unit) :
    List ReplicationEntry → Nat → ReplayResults
  | [], _ => { total := 0, success := 0, failed := 0, details := [] }
  | e :: rest, j =>
    let r := replayStats outcome rest (j + 1)
    match outcome j with
    | .ok _ =>
      { total := r.total + 1, success := r.success + 1, failed := r.failed,
        details := { id := e.id, query := e.query.take 100, ok := true,
                     error := none } :: r.details }
    | .error msg =>
      { total := r.total + 1, success := r.success, failed := r.failed + 1,
        details := { id := e.id, query := e.query.take 100, ok := false,
                     error := some msg } :: r.details }

/-- `replayFailedReplications(recoveredNode)` (server.js lines 257-306):
select the failed entries targeting the node (in original append order),
reapply each entry's original query against that node's store
(oracle `outcome`, indexed by position in the selection), and return the
updated ledger together with the summary counters. -/
def replayFailedReplications (recoveredNode : Node)
    (outcome : Nat → Except String Unit) (now : Nat)
    (queue : List ReplicationEntry) :
    List ReplicationEntry × ReplayResults :=
  (replayQueue recoveredNode outcome now queue 0,
   replayStats outcome (queue.filter (isFailedFor recoveredNode)) 0)

/-! ### The `/api/query/execute` coordinator -/

/-- Status of an Operation Log Entry. -/
inductive LogStatus where
  | pending
  | committed
  | failed
deriving DecidableEq, Repr

/-- An Operation Log Entry (`transactionLog` element). -/
structure LogEntry where
  node : Node
  query : String
  isolationLevel : String
  status : LogStatus
  error : Option String
  replication : List (Node × ReplicationStatus)
deriving DecidableEq, Repr

/-- Terminal outcome of one `/api/query/execute` request:
`offline` is the 503 rejection, `ok` the successful JSON response
(result abstracted to the row/affected count) with its per-target
replication statuses, `err` the 500 response. -/
inductive HandlerOutcome where
  | offline (msg : String)
  | ok (results : Nat) (replication : List (Node × ReplicationStatus))
  | err (msg : String)
deriving DecidableEq, Repr

/-- Whether the outcome is the NodeOffline rejection. -/
def HandlerOutcome.isRejected : HandlerOutcome → Bool
  | .offline _ => true
  | _ => false

/-- Observable events of one request, in execution order. -/
inductive Event where
  | lockAcquired
  | readAdmitted
  | storeApplied
  | replicationRan
  | markerReleased
  | logPushed
deriving DecidableEq, Repr

/-- Final state of one request: outcome, ledger, transaction log, whether
a marker installed by this request is still present, and the event trace. -/
structure HandlerResult where
  outcome : HandlerOutcome
  queue : List ReplicationEntry
  log : List LogEntry
  markerHeld : Bool
  trace : List Event
deriving DecidableEq, Repr

/-- The lock/read-gate phase of the handler (lines 437-444): writes with
a parsed `trans_id` acquire via `startTransaction`, reads with a parsed
`trans_id` are admitted via `canReadProceed`, everything else passes
through untouched. Returns the admission events, or the thrown error. -/
def gatePhase (isWrite : Bool) (lockTransId : Option Nat)
    (present : Nat → Bool) (node : Node) (now : Nat)
    (effectiveIsolation : String) : Except String (List Event) :=
  match lockTransId with
  | none => .ok []
  | some tid =>
    if isWrite then
      match startTransaction tid present node now with
      | .ok _ => .ok [.lockAcquired]
      | .error e => .error e
    else
      match canReadProceed (some tid) present effectiveIsolation with
      | .ok _ => .ok [.readAdmitted]
      | .error e => .error e

/-- The catch block of the handler (lines 472-493): mark the log entry
failed, push it, answer 500; the marker (if this request installed one)
has been released by `commitTransaction`. -/
def abortResult (logBase : LogEntry) (e : String)
    (queue : List ReplicationEntry) (log : List LogEntry)
    (tr : List Event) : HandlerResult :=
  { outcome := .err e, queue := queue,
    log := log ++ [{ logBase with status := .failed, error := some e }],
    markerHeld := false, trace := tr }

/-- The `/api/query/execute` handler (server.js lines 399-494), for a
valid node name. Oracles: `present` is the marker schedule seen by the
polling loops, `connOutcome` the result of `pools[node].getConnection()`,
`storeOutcome` the result of the primary `connection.query(query)`
(abstracted to a row/affected count), `fetchedDate` and `applyOutcome`
feed `replicateWrite`. Control flow: offline rejection before anything
else (no log entry, lines 408-416); then connection acquisition, the
gate phase, the primary store apply, replication, marker release
(`commitTransaction`), and the log push — any thrown error diverts to
the catch block (`abortResult`), which releases the marker and pushes a
`failed` log entry. -/
def executeQuery (node : Node) (query : String)
    (isolationLevel : Option String) (failures : Node → Bool)
    (present : Nat → Bool) (connOutcome : Except String Unit)
    (storeOutcome : Except String Nat) (fetchedDate : Option Int)
    (applyOutcome : Node → Except String Unit) (now : Nat)
    (queue : List ReplicationEntry) (log : List LogEntry) : HandlerResult :=
  if failures node then
    { outcome := .offline ("Node " ++ node.name ++ " is offline - operations not allowed"),
      queue := queue, log := log, markerHeld := false, trace := [] }
  else
    let effectiveIsolation := isolationLevel.getD "READ_COMMITTED"
    let isWrite := isWriteQuery query
    let lockTransId := parseTransId query
    let logBase : LogEntry :=
      { node := node, query := query, isolationLevel := effectiveIsolation,
        status := .pending, error := none, replication := [] }
    match connOutcome with
    | .error e =>
      -- catch: no marker was installed by this request
      abortResult logBase e queue log [.logPushed]
    | .ok _ =>
      match gatePhase isWrite lockTransId present node now
        effectiveIsolation with
      | .error e =>
        -- catch after a lock/read timeout: our marker was never installed
        abortResult logBase e queue log [.logPushed]
      | .ok preEvents =>
        let held := isWrite && lockTransId.isSome
        match storeOutcome with
        | .error e =>
          -- catch after the store apply threw: commitTransaction releases
          abortResult logBase e queue log
            (preEvents ++ [.storeApplied]
              ++ (if held then [.markerReleased] else []) ++ [.logPushed])
        | .ok results =>
          let repl := replicateWrite node query fetchedDate failures
            applyOutcome queue now
          let replStatuses := repl.2.1.map (fun r => (r.target, r.status))
          let committedEntry : LogEntry :=
            { logBase with status := .committed, replication := replStatuses }
          { outcome := .ok results replStatuses, queue := repl.1,
            log := log ++ [committedEntry],
            markerHeld := false,
            trace := preEvents ++ [.storeApplied, .replicationRan]
              ++ (if held then [.markerReleased] else []) ++ [.logPushed] }

/-! ### Lemmas about the polling wait -/

theorem maxPolls_eq : maxPolls = 101 := rfl

theorem waitForClearFuel_eq_none (present : Nat → Bool) :
    ∀ fuel k, fuel + k = maxPolls + 1 →
      (∀ i, k ≤ i → i ≤ maxPolls → present i = true) →
      waitForClearFuel present fuel k = none := by
  intro fuel
  induction fuel with
  | zero => intro k _ _; rfl
  | succ n ih =>
    intro k hk hp
    have hM : maxPolls = 101 := rfl
    have hpk : present k = true := hp k le_rfl (by omega)
    unfold waitForClearFuel
    rw [hpk]
    by_cases htime : k * POLL_INTERVAL > TRANSACTION_TIMEOUT
    · simp [htime]
    · simp only [if_true, if_neg htime]
      exact ih (k + 1) (by omega) (fun i h1 h2 => hp i (by omega) h2)

theorem waitForClearFuel_eq_some (present : Nat → Bool) :
    ∀ fuel k j, fuel + k = maxPolls + 1 → k ≤ j → j ≤ maxPolls →
      present j = false → (∀ i, k ≤ i → i < j → present i = true) →
      waitForClearFuel present fuel k = some j := by
  intro fuel
  induction fuel with
  | zero =>
    intro k j hk hkj hj _ _
    exfalso
    have hM : maxPolls = 101 := rfl
    omega
  | succ n ih =>
    intro k j hk hkj hj hpj hp
    have hM : maxPolls = 101 := rfl
    have hP : POLL_INTERVAL = 50 := rfl
    have hT : TRANSACTION_TIMEOUT = 5000 := rfl
    rcases Nat.eq_or_lt_of_le hkj with heq | hlt
    · subst heq
      unfold waitForClearFuel
      rw [hpj]
      simp
    · have hpk : present k = true := hp k le_rfl hlt
      have htime : ¬ k * POLL_INTERVAL > TRANSACTION_TIMEOUT := by
        rw [hP, hT]; omega
      unfold waitForClearFuel
      rw [hpk]
      simp only [if_true, if_neg htime]
      exact ih (k + 1) j (by omega) (by omega) hj hpj
        (fun i h1 h2 => hp i (by omega) h2)

theorem waitForClear_eq_none (present : Nat → Bool)
    (h : ∀ k, k ≤ maxPolls → present k = true) :
    waitForClear present = none :=
  waitForClearFuel_eq_none present (maxPolls + 1) 0 (by omega)
    (fun i _ h2 => h i h2)

theorem waitForClear_eq_some (present : Nat → Bool) (j : Nat)
    (hj : j ≤ maxPolls) (hpj : present j = false)
    (hbefore : ∀ i, i < j → present i = true) :
    waitForClear present = some j :=
  waitForClearFuel_eq_some present (maxPolls + 1) 0 j (by omega) (Nat.zero_le j)
    hj hpj (fun i _ h2 => hbefore i h2)

/-! ### Lemmas about the replication loop -/

theorem replicateEntry_target (s : Node) (q : String) (f : Node → Bool)
    (a : Node → Except String Unit) (eid now : Nat) (t : Node) :
    (replicateEntry s q f a eid now t).1.target = t := by
  unfold replicateEntry
  split
  · rfl
  · split <;> rfl

theorem replicateLoop_map_target (s : Node) (q : String) (f : Node → Bool)
    (a : Node → Except String Unit) (now : Nat) :
    ∀ (targets : List Node) (eid : Nat),
      (replicateLoop s q f a now targets eid).1.map (fun e => e.target)
        = targets := by
  intro targets
  induction targets with
  | nil => intro eid; rfl
  | cons t rest ih =>
    intro eid
    simp only [replicateLoop, List.map_cons, List.cons.injEq]
    exact ⟨replicateEntry_target s q f a eid now t, ih (eid + 1)⟩

/-! ### Claim theorems -/

/-- C1: for every write replicated by `replicateWrite`, the target set is
exactly `replicationTargets` applied to the resolved record date, and that
rule sends the master's writes to fragment A (`node1`) for dates strictly
before the 1997-01-01 boundary, to fragment B (`node2`) for dates at or
after it, to both fragments when the date is unresolved, and sends every
fragment-originated write to the master (`node0`). -/
theorem replicateWrite_target_set (sourceNode : Node) (query : String)
    (fetchedDate : Option Int) (failures : Node → Bool)
    (applyOutcome : Node → Except String Unit)
    (queue : List ReplicationEntry) (now : Nat)
    (hw : isWriteQuery query = true) :
    ((replicateWrite sourceNode query fetchedDate failures applyOutcome
        queue now).2.1.map (fun e => e.target)
      = replicationTargets sourceNode (resolvedRecordDate query fetchedDate))
    ∧ (∀ d : Int, d < FRAG_BOUNDARY →
        replicationTargets Node.node0 (some d) = [Node.node1])
    ∧ (∀ d : Int, FRAG_BOUNDARY ≤ d →
        replicationTargets Node.node0 (some d) = [Node.node2])
    ∧ replicationTargets Node.node0 none = [Node.node1, Node.node2]
    ∧ (∀ dOpt : Option Int,
        replicationTargets Node.node1 dOpt = [Node.node0]
        ∧ replicationTargets Node.node2 dOpt = [Node.node0]) := by
  refine ⟨?_, ?_, ?_, ?_, ?_⟩
  · simp only [replicateWrite, hw, Bool.not_true, Bool.false_eq_true,
      if_false]
    exact replicateLoop_map_target sourceNode query failures applyOutcome
      now _ queue.length
  · intro d hd
    simp [replicationTargets, hd]
  · intro d hd
    simp [replicationTargets, not_lt.mpr hd]
  · rfl
  · intro dOpt
    exact ⟨rfl, rfl⟩

/-- Witness for C1 at a concrete master write whose record date lies
before the boundary. -/
theorem replicateWrite_target_set_witness :
    isWriteQuery "UPDATE trans SET amount = 1 WHERE trans_id = 3" = true
    ∧ ((replicateWrite Node.node0
        "UPDATE trans SET amount = 1 WHERE trans_id = 3" (some 0)
        (fun _ => false) (fun _ => Except.ok ()) [] 0).2.1.map
          (fun e => e.target)
      = replicationTargets Node.node0
          (resolvedRecordDate "UPDATE trans SET amount = 1 WHERE trans_id = 3"
            (some 0))) :=
  ⟨by decide,
   (replicateWrite_target_set Node.node0
     "UPDATE trans SET amount = 1 WHERE trans_id = 3" (some 0)
     (fun _ => false) (fun _ => Except.ok ()) [] 0 (by decide)).1⟩

/-- C2: a write on a key with no existing Active Write Marker proceeds
immediately; with an existing marker, `startTransaction` waits, polling at
the fixed 50 ms interval, until the marker clears (at any poll up to the
timeout bound) and then installs its own marker, and if the marker never
clears within the 5000 ms `TRANSACTION_TIMEOUT` it throws the lock
timeout, in which case (last conjunct, at the coordinator level) no marker
is installed for the requester and the operation terminates as a failure
with that timeout message. -/
theorem startTransaction_lock_behavior (transId : Nat)
    (present : Nat → Bool) (node : Node) (now : Nat) :
    TRANSACTION_TIMEOUT = 5000 ∧ POLL_INTERVAL = 50
    ∧ (present 0 = false →
        startTransaction transId present node now
          = .ok (0, { node := node, startTime := now }))
    ∧ (∀ j, j ≤ maxPolls → present j = false →
        (∀ i, i < j → present i = true) →
        startTransaction transId present node now
          = .ok (j, { node := node, startTime := now }))
    ∧ ((∀ k, k ≤ maxPolls → present k = true) →
        startTransaction transId present node now
          = .error ("Transaction " ++ toString transId
              ++ ": Timeout waiting for concurrent write to complete"))
    ∧ (∀ (query : String) (isolationLevel : Option String)
        (failures : Node → Bool) (storeOutcome : Except String Nat)
        (fetchedDate : Option Int)
        (applyOutcome : Node → Except String Unit)
        (queue : List ReplicationEntry) (log : List LogEntry),
        failures node = false → isWriteQuery query = true →
        parseTransId query = some transId →
        (∀ k, k ≤ maxPolls → present k = true) →
        (executeQuery node query isolationLevel failures present
          (.ok ()) storeOutcome fetchedDate applyOutcome now queue
          log).markerHeld = false
        ∧ (executeQuery node query isolationLevel failures present
            (.ok ()) storeOutcome fetchedDate applyOutcome now queue
            log).outcome
          = .err ("Transaction " ++ toString transId
              ++ ": Timeout waiting for concurrent write to complete")) := by
  refine ⟨rfl, rfl, ?_, ?_, ?_, ?_⟩
  · intro h0
    unfold startTransaction
    rw [waitForClear_eq_some present 0 (Nat.zero_le _) h0
      (fun i hi => absurd hi (Nat.not_lt_zero i))]
  · intro j hj hpj hbefore
    unfold startTransaction
    rw [waitForClear_eq_some present j hj hpj hbefore]
  · intro hall
    unfold startTransaction
    rw [waitForClear_eq_none present hall]
  · intro query isolationLevel failures storeOutcome fetchedDate
      applyOutcome queue log hoff hw hid hall
    have hlock : startTransaction transId present node now
        = .error ("Transaction " ++ toString transId
            ++ ": Timeout waiting for concurrent write to complete") := by
      unfold startTransaction
      rw [waitForClear_eq_none present hall]
    constructor <;>
      simp [executeQuery, gatePhase, abortResult, hoff, hw, hid, hlock]

/-- Witness for C2: with the marker permanently held, the lock manager
times out and the coordinator terminates with that failure, no marker
installed; the per-poll bound is discharged concretely. -/
theorem startTransaction_lock_behavior_witness :
    ((fun _ : Nat => true) 0 = false →
      startTransaction 3 (fun _ => true) Node.node0 7
        = .ok (0, { node := Node.node0, startTime := 7 }))
    ∧ ((∀ k, k ≤ maxPolls → (fun _ : Nat => true) k = true) →
        startTransaction 3 (fun _ => true) Node.node0 7
          = .error ("Transaction " ++ toString 3
              ++ ": Timeout waiting for concurrent write to complete")) :=
  ⟨(startTransaction_lock_behavior 3 (fun _ => true) Node.node0 7).2.2.1,
   (startTransaction_lock_behavior 3 (fun _ => true) Node.node0
     7).2.2.2.2.1⟩

/-- C3: the Read Gate admits immediately when no Active Write Marker
exists (any isolation level), admits immediately under `READ_UNCOMMITTED`
even with a marker, and under each of `READ_COMMITTED`,
`REPEATABLE_READ` and `SERIALIZABLE` waits, polling, until the marker
clears — bounded by the same `TRANSACTION_TIMEOUT` as the lock manager —
throwing the read timeout if it never clears; moreover every level other
than `READ_UNCOMMITTED` shares the identical admission decision. -/
theorem canReadProceed_gate (transId : Nat) (present : Nat → Bool)
    (level : String) :
    (present 0 = false →
      canReadProceed (some transId) present level = .ok 0)
    ∧ (canReadProceed (some transId) present "READ_UNCOMMITTED" = .ok 0)
    ∧ (level = "READ_COMMITTED" ∨ level = "REPEATABLE_READ"
        ∨ level = "SERIALIZABLE" →
        (∀ j, j ≤ maxPolls → present j = false →
          (∀ i, i < j → present i = true) →
          canReadProceed (some transId) present level = .ok j)
        ∧ ((∀ k, k ≤ maxPolls → present k = true) →
          canReadProceed (some transId) present level
            = .error (level ++ ": Timeout waiting for transaction")))
    ∧ (∀ l₁ l₂ : String, l₁ ≠ "READ_UNCOMMITTED" →
        l₂ ≠ "READ_UNCOMMITTED" →
        proceeds (canReadProceed (some transId) present l₁)
          = proceeds (canReadProceed (some transId) present l₂)) := by
  refine ⟨?_, ?_, ?_, ?_⟩
  · intro h0
    simp [canReadProceed, h0]
  · by_cases h0 : present 0
    · simp [canReadProceed, h0]
    · simp [canReadProceed, h0]
  · intro hlvl
    have hne : ¬ level = "READ_UNCOMMITTED" := by
      rcases hlvl with h | h | h <;> simp [h]
    constructor
    · intro j hj hpj hbefore
      by_cases h0 : present 0
      · simp only [canReadProceed, Option.isNone_some, h0,
          Bool.not_true, Bool.or_self, Bool.false_eq_true, if_false,
          if_neg hne]
        rw [waitForClear_eq_some present j hj hpj hbefore]
      · have hj0 : j = 0 := by
          by_contra hne0
          exact absurd (hbefore 0 (Nat.pos_of_ne_zero hne0))
            (by simp [h0])
        subst hj0
        simp [canReadProceed, h0]
    · intro hall
      have h0 : present 0 = true := hall 0 (Nat.zero_le _)
      simp only [canReadProceed, Option.isNone_some, h0,
        Bool.not_true, Bool.or_self, Bool.false_eq_true, if_false,
        if_neg hne]
      rw [waitForClear_eq_none present hall]
  · intro l₁ l₂ h1 h2
    by_cases h0 : present 0
    · simp only [canReadProceed, Option.isNone_some, h0, Bool.not_true,
        Bool.or_self, Bool.false_eq_true, if_false, if_neg h1, if_neg h2]
      cases waitForClear present <;> rfl
    · simp [canReadProceed, h0]

/-- Witness for C3 under `SERIALIZABLE` with a marker that clears at
poll 2. -/
theorem canReadProceed_gate_witness :
    canReadProceed (some 3) (fun k => k < 2) "SERIALIZABLE" = .ok 2 :=
  ((canReadProceed_gate 3 (fun k => k < 2) "SERIALIZABLE").2.2.1
    (Or.inr (Or.inr rfl))).1 2 (by decide) (by decide)
    (fun i hi => decide_eq_true hi)

theorem replicateEntry_attempted (s : Node) (q : String) (f : Node → Bool)
    (a : Node → Except String Unit) (eid now : Nat) (t : Node) :
    (replicateEntry s q f a eid now t).2 = !f t := by
  by_cases hf : f t
  · simp [replicateEntry, hf]
  · simp only [Bool.not_eq_true] at hf
    cases ha : a t <;> simp [replicateEntry, hf, ha]

theorem replicateLoop_attempts (s : Node) (q : String) (f : Node → Bool)
    (a : Node → Except String Unit) (now : Nat) :
    ∀ (targets : List Node) (eid : Nat),
      (replicateLoop s q f a now targets eid).2
        = targets.filter (fun t => !f t) := by
  intro targets
  induction targets with
  | nil => intro eid; rfl
  | cons t rest ih =>
    intro eid
    simp only [replicateLoop, List.filter_cons]
    rw [replicateEntry_attempted, ih (eid + 1)]

theorem replicateLoop_entry_spec (s : Node) (q : String) (f : Node → Bool)
    (a : Node → Except String Unit) (now : Nat) :
    ∀ (targets : List Node) (eid : Nat),
      ∀ e ∈ (replicateLoop s q f a now targets eid).1,
        (e.status = .replicated ∨ e.status = .failed)
        ∧ (f e.target = true → e.status = .failed
            ∧ e.error = some ("Node " ++ e.target.name
                ++ " is offline (simulated failure)"))
        ∧ (f e.target = false →
            (a e.target = .ok () → e.status = .replicated ∧ e.error = none)
            ∧ (∀ msg, a e.target = .error msg →
                e.status = .failed ∧ e.error = some msg)) := by
  intro targets
  induction targets with
  | nil => intro eid e he; cases he
  | cons t rest ih =>
    intro eid e he
    rcases List.mem_cons.mp he with he | he
    · subst he
      by_cases hf : f t
      · simp [replicateEntry, hf]
      · simp only [Bool.not_eq_true] at hf
        cases ha : a t with
        | ok u => cases u; simp [replicateEntry, hf, ha]
        | error msg => simp [replicateEntry, hf, ha]
    · exact ih (eid + 1) e he

/-- C4: in `replicateWrite`, a target whose fault-injection flag is set
receives a synthesized `failed` entry with the descriptive offline error
and no apply attempt; a target whose flag is clear gets an apply attempt
recorded as `replicated` on success or `failed` with the underlying error
on exception; and the new ledger is the old ledger with exactly the
produced result entries appended. -/
theorem replicateWrite_per_target (sourceNode : Node) (query : String)
    (fetchedDate : Option Int) (failures : Node → Bool)
    (applyOutcome : Node → Except String Unit)
    (queue : List ReplicationEntry) (now : Nat)
    (hw : isWriteQuery query = true) :
    ((replicateWrite sourceNode query fetchedDate failures applyOutcome
        queue now).1
      = queue ++ (replicateWrite sourceNode query fetchedDate failures
          applyOutcome queue now).2.1)
    ∧ ∀ e ∈ (replicateWrite sourceNode query fetchedDate failures
        applyOutcome queue now).2.1,
        (failures e.target = true → e.status = .failed
          ∧ e.error = some ("Node " ++ e.target.name
              ++ " is offline (simulated failure)")
          ∧ e.target ∉ (replicateWrite sourceNode query fetchedDate
              failures applyOutcome queue now).2.2)
        ∧ (failures e.target = false →
            e.target ∈ (replicateWrite sourceNode query fetchedDate
              failures applyOutcome queue now).2.2
            ∧ (applyOutcome e.target = .ok () →
                e.status = .replicated ∧ e.error = none)
            ∧ (∀ msg, applyOutcome e.target = .error msg →
                e.status = .failed ∧ e.error = some msg)) := by
  simp only [replicateWrite, hw, Bool.not_true, Bool.false_eq_true,
    if_false]
  refine ⟨trivial, ?_⟩
  intro e he
  have hspec := replicateLoop_entry_spec sourceNode query failures
    applyOutcome now _ queue.length e he
  have htin : e.target ∈ replicationTargets sourceNode
      (resolvedRecordDate query fetchedDate) := by
    have hmap := replicateLoop_map_target sourceNode query failures
      applyOutcome now (replicationTargets sourceNode
        (resolvedRecordDate query fetchedDate)) queue.length
    rw [← hmap]
    exact List.mem_map_of_mem (fun e => e.target) he
  rw [replicateLoop_attempts]
  refine ⟨fun hf => ⟨(hspec.2.1 hf).1, (hspec.2.1 hf).2, ?_⟩,
    fun hf => ⟨?_, fun hok => (hspec.2.2 hf).1 hok,
      fun msg hmsg => (hspec.2.2 hf).2 msg hmsg⟩⟩
  · intro hmem
    have := (List.mem_filter.mp hmem).2
    simp [hf] at this
  · exact List.mem_filter.mpr ⟨htin, by simp [hf]⟩

/-- Witness for C4: master write routed to fragment A whose fault flag is
set — the ledger gains exactly the produced entries. -/
theorem replicateWrite_per_target_witness :
    (replicateWrite Node.node0
        "UPDATE trans SET amount = 1 WHERE trans_id = 3" (some 0)
        (fun n => n == Node.node1) (fun _ => Except.ok ()) [] 0).1
      = [] ++ (replicateWrite Node.node0
          "UPDATE trans SET amount = 1 WHERE trans_id = 3" (some 0)
          (fun n => n == Node.node1) (fun _ => Except.ok ()) [] 0).2.1 :=
  (replicateWrite_per_target Node.node0
    "UPDATE trans SET amount = 1 WHERE trans_id = 3" (some 0)
    (fun n => n == Node.node1) (fun _ => Except.ok ()) [] 0 (by decide)).1

/-- The committed Operation Log Entry the coordinator pushes on the
success path (fields as assembled across server.js lines 420-427 and
449-455). -/
def committedLogEntry (node : Node) (query : String)
    (isolationLevel : Option String)
    (repl : List (Node × ReplicationStatus)) : LogEntry :=
  { node := node, query := query,
    isolationLevel := isolationLevel.getD "READ_COMMITTED",
    status := .committed, error := none, replication := repl }

/-- C5: for every write whose primary store apply succeeds (and whose lock
acquisition did not itself abort the operation), the coordinator
terminates as committed: the response is the successful outcome carrying
the per-target replication statuses, and the pushed log entry is
`committed` — for every value of the per-target fault flags and apply
outcomes, i.e. even when some or all replication targets fail. -/
theorem write_commit_despite_replication_failures (node : Node)
    (query : String) (isolationLevel : Option String)
    (failures : Node → Bool) (present : Nat → Bool) (storeN : Nat)
    (fetchedDate : Option Int) (applyOutcome : Node → Except String Unit)
    (now : Nat) (queue : List ReplicationEntry) (log : List LogEntry)
    (hoff : failures node = false) (hw : isWriteQuery query = true)
    (hlk : ∀ tid, parseTransId query = some tid →
      ∃ j m, startTransaction tid present node now = Except.ok (j, m)) :
    (executeQuery node query isolationLevel failures present (.ok ())
        (.ok storeN) fetchedDate applyOutcome now queue log).outcome
      = .ok storeN ((replicateWrite node query fetchedDate failures
          applyOutcome queue now).2.1.map (fun r => (r.target, r.status)))
    ∧ (executeQuery node query isolationLevel failures present (.ok ())
        (.ok storeN) fetchedDate applyOutcome now queue log).log
      = log ++ [committedLogEntry node query isolationLevel
          ((replicateWrite node query fetchedDate failures applyOutcome
            queue now).2.1.map (fun r => (r.target, r.status)))]
    ∧ (executeQuery node query isolationLevel failures present (.ok ())
        (.ok storeN) fetchedDate applyOutcome now queue log).queue
      = (replicateWrite node query fetchedDate failures applyOutcome
          queue now).1 := by
  rcases hp : parseTransId query with _ | tid
  · refine ⟨?_, ?_, ?_⟩ <;>
      simp [executeQuery, gatePhase, committedLogEntry, hoff, hw, hp]
  · obtain ⟨j, m, hok⟩ := hlk tid hp
    refine ⟨?_, ?_, ?_⟩ <;>
      simp [executeQuery, gatePhase, committedLogEntry, hoff, hw, hp,
        hok]

/-- Witness for C5: master write with every replication target killed
still yields the committed response, replication status `failed`. -/
theorem write_commit_despite_replication_failures_witness :
    (executeQuery Node.node0
        "UPDATE trans SET amount = 1 WHERE trans_id = 3" none
        (fun n => !(n == Node.node0)) (fun _ => false) (.ok ())
        (.ok 1) (some 0) (fun _ => Except.ok ()) 0 [] []).outcome
      = .ok 1 ((replicateWrite Node.node0
          "UPDATE trans SET amount = 1 WHERE trans_id = 3" (some 0)
          (fun n => !(n == Node.node0)) (fun _ => Except.ok ()) [] 0).2.1.map
            (fun r => (r.target, r.status))) :=
  (write_commit_despite_replication_failures Node.node0
    "UPDATE trans SET amount = 1 WHERE trans_id = 3" none
    (fun n => !(n == Node.node0)) (fun _ => false) 1 (some 0)
    (fun _ => Except.ok ()) 0 [] [] (by decide) (by decide)
    (fun tid _ => ⟨0, { node := Node.node0, startTime := 0 }, rfl⟩)).1

/-! ### Lemmas about replay -/

/-- The number of selected (failed-for-`node`) entries strictly before
position `i` of the ledger: the selection index the replay loop uses for
the entry at position `i`. -/
def rankBefore (node : Node) (queue : List ReplicationEntry) (i : Nat) :
    Nat :=
  ((queue.take i).filter (isFailedFor node)).length

theorem rankBefore_zero (node : Node) (queue : List ReplicationEntry) :
    rankBefore node queue 0 = 0 := rfl

theorem rankBefore_cons (node : Node) (e : ReplicationEntry)
    (rest : List ReplicationEntry) (i : Nat) :
    rankBefore node (e :: rest) (i + 1)
      = (if isFailedFor node e then 1 else 0) + rankBefore node rest i := by
  simp only [rankBefore, List.take_succ_cons, List.filter_cons]
  by_cases hf : isFailedFor node e <;> simp [hf, Nat.add_comm]

theorem replayQueue_length (node : Node)
    (outcome : Nat → Except String Unit) (now : Nat) :
    ∀ (l : List ReplicationEntry) (j : Nat),
      (replayQueue node outcome now l j).length = l.length := by
  intro l
  induction l with
  | nil => intro j; rfl
  | cons e rest ih =>
    intro j
    by_cases hf : isFailedFor node e
    · cases houtcome : outcome j <;>
        simp [replayQueue, hf, houtcome, ih]
    · simp [replayQueue, hf, ih]

/-- The mutation a successful replay applies to a ledger entry. -/
def replayedEntry (e : ReplicationEntry) (now : Nat) : ReplicationEntry :=
  { e with status := .replicated, error := none, recoveryTime := some now }

theorem replayQueue_get (node : Node)
    (outcome : Nat → Except String Unit) (now : Nat) :
    ∀ (l : List ReplicationEntry) (j i : Nat) (h : i < l.length)
      (h' : i < (replayQueue node outcome now l j).length),
      (replayQueue node outcome now l j).get ⟨i, h'⟩
        = if isFailedFor node (l.get ⟨i, h⟩) then
            match outcome (j + rankBefore node l i) with
            | .ok _ => replayedEntry (l.get ⟨i, h⟩) now
            | .error _ => l.get ⟨i, h⟩
          else l.get ⟨i, h⟩ := by
  intro l
  induction l with
  | nil => intro j i h; exact absurd h (Nat.not_lt_zero i)
  | cons e rest ih =>
    intro j i h h'
    by_cases hf : isFailedFor node e
    · have hstep : replayQueue node outcome now (e :: rest) j
          = (match outcome j with
             | .ok _ => replayedEntry e now
             | .error _ => e) :: replayQueue node outcome now rest (j + 1) := by
        cases houtcome : outcome j <;>
          simp [replayQueue, hf, houtcome, replayedEntry]
      cases i with
      | zero =>
        cases houtcome : outcome j <;>
          simp [hstep, hf, rankBefore_zero, houtcome]
      | succ i =>
        have hrest : i < rest.length := Nat.lt_of_succ_lt_succ h
        have h'' : i < (replayQueue node outcome now rest (j + 1)).length := by
          rw [replayQueue_length]; exact hrest
        have hL : (replayQueue node outcome now (e :: rest) j).get ⟨i + 1, h'⟩
            = (replayQueue node outcome now rest (j + 1)).get ⟨i, h''⟩ := by
          simp [hstep]
        rw [hL, ih (j + 1) i hrest h'']
        have hrank : rankBefore node (e :: rest) (i + 1)
            = 1 + rankBefore node rest i := by
          rw [rankBefore_cons]; simp [hf]
        simp [hrank, hf, Nat.add_assoc]
    · have hstep : replayQueue node outcome now (e :: rest) j
          = e :: replayQueue node outcome now rest j := by
        simp [replayQueue, hf]
      cases i with
      | zero => simp [hstep, hf]
      | succ i =>
        have hrest : i < rest.length := Nat.lt_of_succ_lt_succ h
        have h'' : i < (replayQueue node outcome now rest j).length := by
          rw [replayQueue_length]; exact hrest
        have hL : (replayQueue node outcome now (e :: rest) j).get ⟨i + 1, h'⟩
            = (replayQueue node outcome now rest j).get ⟨i, h''⟩ := by
          simp [hstep]
        rw [hL, ih j i hrest h'']
        have hrank : rankBefore node (e :: rest) (i + 1)
            = rankBefore node rest i := by
          rw [rankBefore_cons]; simp [hf]
        simp [hrank]

theorem replayStats_total (outcome : Nat → Except String Unit) :
    ∀ (l : List ReplicationEntry) (j : Nat),
      (replayStats outcome l j).total = l.length := by
  intro l
  induction l with
  | nil => intro j; rfl
  | cons e rest ih =>
    intro j
    cases houtcome : outcome j <;> simp [replayStats, houtcome, ih (j + 1)]

theorem replayStats_success_add_failed (outcome : Nat → Except String Unit) :
    ∀ (l : List ReplicationEntry) (j : Nat),
      (replayStats outcome l j).total
        = (replayStats outcome l j).success + (replayStats outcome l j).failed := by
  intro l
  induction l with
  | nil => intro j; rfl
  | cons e rest ih =>
    intro j
    cases houtcome : outcome j <;>
      (simp [replayStats, houtcome]; rw [ih (j + 1)]) <;> omega

/-- The detail record the replay summary pushes for one selected entry. -/
def replayDetailFor (e : ReplicationEntry) (res : Except String Unit) :
    ReplayDetail :=
  match res with
  | .ok _ => { id := e.id, query := e.query.take 100, ok := true,
               error := none }
  | .error msg => { id := e.id, query := e.query.take 100, ok := false,
                    error := some msg }

theorem replayStats_details_get (outcome : Nat → Except String Unit) :
    ∀ (l : List ReplicationEntry) (j i : Nat) (h : i < l.length)
      (hd : i < ((replayStats outcome l j).details).length),
      ((replayStats outcome l j).details).get ⟨i, hd⟩
        = replayDetailFor (l.get ⟨i, h⟩) (outcome (j + i)) := by
  intro l
  induction l with
  | nil => intro j i h; exact absurd h (Nat.not_lt_zero i)
  | cons e rest ih =>
    intro j i h hd
    have hstep : (replayStats outcome (e :: rest) j).details
        = replayDetailFor e (outcome j)
          :: (replayStats outcome rest (j + 1)).details := by
      cases houtcome : outcome j <;>
        simp [replayStats, houtcome, replayDetailFor]
    cases i with
    | zero => simp [hstep]
    | succ i =>
      have hrest : i < rest.length := Nat.lt_of_succ_lt_succ h
      have hd' : i < ((replayStats outcome rest (j + 1)).details).length := by
        have := hd
        rw [hstep] at this
        exact Nat.lt_of_succ_lt_succ this
      have hL : ((replayStats outcome (e :: rest) j).details).get ⟨i + 1, hd⟩
          = ((replayStats outcome rest (j + 1)).details).get ⟨i, hd'⟩ := by
        simp [hstep]
      rw [hL, ih (j + 1) i hrest hd']
      have : j + 1 + i = j + (i + 1) := by omega
      simp [this]

/-- A ledger entry left over from a failed replication attempt, used as a
concrete counterexample/witness input. -/
def staleFailedEntry : ReplicationEntry :=
  { id := 7, source := Node.node0, target := Node.node1,
    query := "UPDATE trans SET amount = 1 WHERE trans_id = 3",
    status := .failed,
    error := some "Node node1 is offline (simulated failure)",
    time := 5, recoveryTime := none }

set_option maxRecDepth 4000 in
/-- C6 counterexample: replaying a failed entry whose reapply fails again
("Connection refused") leaves the ledger entry byte-for-byte unchanged —
still `failed`, but with its ORIGINAL error, not an updated one; the new
error appears only in the returned details. This refutes the claim's
"remains failed with an updated error on repeated failure". -/
theorem replay_keeps_original_error_counterexample :
    (replayFailedReplications Node.node1
        (fun _ => Except.error "Connection refused") 99
        [staleFailedEntry]).1 = [staleFailedEntry]
    ∧ staleFailedEntry.status = ReplicationStatus.failed
    ∧ staleFailedEntry.error ≠ some "Connection refused"
    ∧ (replayFailedReplications Node.node1
        (fun _ => Except.error "Connection refused") 99
        [staleFailedEntry]).2.failed = 1
    ∧ (replayFailedReplications Node.node1
        (fun _ => Except.error "Connection refused") 99
        [staleFailedEntry]).2.details
      = [{ id := 7,
           query := "UPDATE trans SET amount = 1 WHERE trans_id = 3",
           ok := false, error := some "Connection refused" }] := by
  refine ⟨rfl, rfl, by decide, rfl, rfl⟩

/-- C6 (amended): replay selects exactly the ledger entries with target
equal to the recovered node and status `failed`, in original append
order (the `j`-th selected entry is reapplied with the `j`-th apply
outcome, where `j` is its rank `rankBefore` among selected entries); a
successfully reapplied entry becomes `replicated` with its error cleared
and a recovery time stamped; an entry whose reapply fails again is left
completely unchanged — it remains `failed` with its original error, the
new error being recorded only in the returned details; unselected
entries are untouched; and the returned counts satisfy
`total = success + failed` with `total` the number of selected entries. -/
theorem replay_failed_replications_spec (recoveredNode : Node)
    (outcome : Nat → Except String Unit) (now : Nat)
    (queue : List ReplicationEntry) :
    ((replayFailedReplications recoveredNode outcome now queue).1.length
      = queue.length)
    ∧ ((replayFailedReplications recoveredNode outcome now queue).2.total
      = (queue.filter (isFailedFor recoveredNode)).length)
    ∧ ((replayFailedReplications recoveredNode outcome now queue).2.total
      = (replayFailedReplications recoveredNode outcome now queue).2.success
        + (replayFailedReplications recoveredNode outcome now queue).2.failed)
    ∧ (∀ i (h : i < queue.length)
        (h' : i < (replayFailedReplications recoveredNode outcome now
          queue).1.length),
        (isFailedFor recoveredNode (queue.get ⟨i, h⟩) = false →
          (replayFailedReplications recoveredNode outcome now queue).1.get
            ⟨i, h'⟩ = queue.get ⟨i, h⟩)
        ∧ (isFailedFor recoveredNode (queue.get ⟨i, h⟩) = true →
          (outcome (rankBefore recoveredNode queue i) = .ok () →
            (replayFailedReplications recoveredNode outcome now queue).1.get
              ⟨i, h'⟩ = replayedEntry (queue.get ⟨i, h⟩) now)
          ∧ (∀ msg,
              outcome (rankBefore recoveredNode queue i) = .error msg →
              (replayFailedReplications recoveredNode outcome now queue).1.get
                ⟨i, h'⟩ = queue.get ⟨i, h⟩)))
    ∧ (∀ i (hf : i < (queue.filter (isFailedFor recoveredNode)).length)
        (hd : i < (replayFailedReplications recoveredNode outcome now
          queue).2.details.length),
        (replayFailedReplications recoveredNode outcome now
          queue).2.details.get ⟨i, hd⟩
          = replayDetailFor
              ((queue.filter (isFailedFor recoveredNode)).get ⟨i, hf⟩)
              (outcome i)) := by
  refine ⟨replayQueue_length recoveredNode outcome now queue 0,
    replayStats_total outcome _ 0,
    replayStats_success_add_failed outcome _ 0, ?_, ?_⟩
  · intro i h h'
    have hget := replayQueue_get recoveredNode outcome now queue 0 i h h'
    rw [Nat.zero_add] at hget
    simp only [replayFailedReplications]
    refine ⟨fun hsel => ?_, fun hsel => ⟨fun hok => ?_, fun msg hmsg => ?_⟩⟩
    · rw [hget, if_neg (by rw [hsel]; exact Bool.false_ne_true)]
    · rw [hget, if_pos hsel, hok]
    · rw [hget, if_pos hsel, hmsg]
  · intro i hf hd
    have hdet := replayStats_details_get outcome
      (queue.filter (isFailedFor recoveredNode)) 0 i hf hd
    rw [Nat.zero_add] at hdet
    simp only [replayFailedReplications]
    exact hdet

/-- Witness for C6 (amended): a successful replay of the stale entry
transitions it to `replicated` with a stamped recovery time. -/
theorem replay_failed_replications_spec_witness :
    (replayFailedReplications Node.node1 (fun _ => Except.ok ()) 99
      [staleFailedEntry]).1.get ⟨0, by decide⟩
      = replayedEntry staleFailedEntry 99 :=
  (((replay_failed_replications_spec Node.node1 (fun _ => Except.ok ()) 99
    [staleFailedEntry]).2.2.2.1 0 (by decide) (by decide)).2
    (by decide)).1 rfl

/-- C7 counterexample: an operation rejected because the target node's
fault-injection flag is set terminates as Rejected/NodeOffline but
appends NO Operation Log Entry — the handler returns the 503 response
before the log entry is even constructed — refuting the claim that every
terminal state (in particular Rejected) produces exactly one log entry. -/
theorem rejected_not_logged_counterexample :
    (executeQuery Node.node0
        "UPDATE trans SET amount = 1 WHERE trans_id = 3" none
        (fun n => n == Node.node0) (fun _ => false) (.ok ()) (.ok 1)
        (some 0) (fun _ => Except.ok ()) 0 [] []).outcome
      = .offline "Node node0 is offline - operations not allowed"
    ∧ (executeQuery Node.node0
        "UPDATE trans SET amount = 1 WHERE trans_id = 3" none
        (fun n => n == Node.node0) (fun _ => false) (.ok ()) (.ok 1)
        (some 0) (fun _ => Except.ok ()) 0 [] []).log = [] := by
  exact ⟨rfl, rfl⟩

/-- C7 (amended): the Committed and Aborted terminal states each append
exactly one Operation Log Entry to the transaction log, but the
Rejected/NodeOffline terminal state appends none — the fault-flag
rejection short-circuits before any log entry is created. -/
theorem terminal_logging (node : Node) (query : String)
    (isolationLevel : Option String) (failures : Node → Bool)
    (present : Nat → Bool) (connOutcome : Except String Unit)
    (storeOutcome : Except String Nat) (fetchedDate : Option Int)
    (applyOutcome : Node → Except String Unit) (now : Nat)
    (queue : List ReplicationEntry) (log : List LogEntry) :
    ((executeQuery node query isolationLevel failures present connOutcome
        storeOutcome fetchedDate applyOutcome now queue
        log).outcome.isRejected = true →
      (executeQuery node query isolationLevel failures present connOutcome
        storeOutcome fetchedDate applyOutcome now queue log).log = log)
    ∧ ((executeQuery node query isolationLevel failures present connOutcome
        storeOutcome fetchedDate applyOutcome now queue
        log).outcome.isRejected = false →
      ∃ entry, (executeQuery node query isolationLevel failures present
        connOutcome storeOutcome fetchedDate applyOutcome now queue
        log).log = log ++ [entry]) := by
  constructor
  · intro hrej
    by_cases hoff : failures node
    · simp [executeQuery, hoff]
    · exfalso
      rw [Bool.not_eq_true] at hoff
      simp only [executeQuery, hoff, Bool.false_eq_true, if_false] at hrej
      cases connOutcome with
      | error e => simp [abortResult, HandlerOutcome.isRejected] at hrej
      | ok u =>
        cases hg : gatePhase (isWriteQuery query) (parseTransId query)
            present node now (isolationLevel.getD "READ_COMMITTED") with
        | error e =>
          rw [hg] at hrej
          simp [abortResult, HandlerOutcome.isRejected] at hrej
        | ok pre =>
          rw [hg] at hrej
          cases storeOutcome <;>
            simp [abortResult, HandlerOutcome.isRejected] at hrej
  · intro hrej
    by_cases hoff : failures node
    · exfalso
      simp [executeQuery, hoff, HandlerOutcome.isRejected] at hrej
    · rw [Bool.not_eq_true] at hoff
      simp only [executeQuery, hoff, Bool.false_eq_true, if_false]
      cases connOutcome with
      | error e => exact ⟨_, rfl⟩
      | ok u =>
        cases hg : gatePhase (isWriteQuery query) (parseTransId query)
            present node now (isolationLevel.getD "READ_COMMITTED") with
        | error e => exact ⟨_, rfl⟩
        | ok pre =>
          cases storeOutcome with
          | error e => exact ⟨_, rfl⟩
          | ok n => exact ⟨_, rfl⟩

/-- Witness for C7 (amended): a committed run appends one log entry. -/
theorem terminal_logging_witness :
    ∃ entry, (executeQuery Node.node0
        "UPDATE trans SET amount = 1 WHERE trans_id = 3" none
        (fun _ => false) (fun _ => false) (.ok ()) (.ok 1) (some 0)
        (fun _ => Except.ok ()) 0 [] []).log = [] ++ [entry] :=
  (terminal_logging Node.node0
    "UPDATE trans SET amount = 1 WHERE trans_id = 3" none
    (fun _ => false) (fun _ => false) (.ok ()) (.ok 1) (some 0)
    (fun _ => Except.ok ()) 0 [] []).2 (by decide)

theorem gatePhase_ok_lockAcquired (isWrite : Bool)
    (lockTransId : Option Nat) (present : Nat → Bool) (node : Node)
    (now : Nat) (iso : String) (pre : List Event)
    (hg : gatePhase isWrite lockTransId present node now iso
      = .ok pre)
    (hmem : Event.lockAcquired ∈ pre) :
    pre = [Event.lockAcquired]
    ∧ (isWrite && lockTransId.isSome) = true := by
  cases lockTransId with
  | none =>
    exfalso
    rw [gatePhase] at hg
    rw [← Except.ok.inj hg] at hmem
    simp at hmem
  | some tid =>
    by_cases h1 : isWrite
    · refine ⟨?_, by simp [h1]⟩
      rw [gatePhase] at hg
      rw [if_pos h1] at hg
      cases hs : startTransaction tid present node now with
      | ok x => rw [hs] at hg; exact (Except.ok.inj hg).symm
      | error e => rw [hs] at hg; cases hg
    · exfalso
      rw [gatePhase] at hg
      rw [if_neg h1] at hg
      cases hr : canReadProceed (some tid) present iso with
      | ok x =>
        rw [hr] at hg
        rw [← Except.ok.inj hg] at hmem
        simp at hmem
      | error e => rw [hr] at hg; cases hg

/-- C9 counterexample: a successful write acquires the marker, applies
the store write, THEN runs the replication phase, and only afterwards
releases the marker — the event trace places the replication phase
strictly before the release, so the marker IS held across replication,
refuting "the marker is not held across the replication phase". -/
theorem marker_held_across_replication_counterexample :
    (executeQuery Node.node0
        "UPDATE trans SET amount = 1 WHERE trans_id = 3" none
        (fun _ => false) (fun _ => false) (.ok ()) (.ok 1) (some 0)
        (fun _ => Except.ok ()) 0 [] []).trace
      = [Event.lockAcquired, Event.storeApplied, Event.replicationRan,
         Event.markerReleased, Event.logPushed]
    ∧ List.indexOf Event.replicationRan
        (executeQuery Node.node0
          "UPDATE trans SET amount = 1 WHERE trans_id = 3" none
          (fun _ => false) (fun _ => false) (.ok ()) (.ok 1) (some 0)
          (fun _ => Except.ok ()) 0 [] []).trace
      < List.indexOf Event.markerReleased
        (executeQuery Node.node0
          "UPDATE trans SET amount = 1 WHERE trans_id = 3" none
          (fun _ => false) (fun _ => false) (.ok ()) (.ok 1) (some 0)
          (fun _ => Except.ok ()) 0 [] []).trace := by
  have h : (executeQuery Node.node0
      "UPDATE trans SET amount = 1 WHERE trans_id = 3" none
      (fun _ => false) (fun _ => false) (.ok ()) (.ok 1) (some 0)
      (fun _ => Except.ok ()) 0 [] []).trace
      = [Event.lockAcquired, Event.storeApplied, Event.replicationRan,
         Event.markerReleased, Event.logPushed] := rfl
  refine ⟨h, ?_⟩
  rw [h]
  decide

/-- C9 (amended): every operation terminates with no marker of its own
still installed, and every write that acquired the marker releases it
exactly once, after the primary store apply has completed or errored —
but on the success path the release comes only after the replication
phase, i.e. the marker is held across replication (no trace event
follows the release except the log push). -/
theorem marker_release_discipline (node : Node) (query : String)
    (isolationLevel : Option String) (failures : Node → Bool)
    (present : Nat → Bool) (connOutcome : Except String Unit)
    (storeOutcome : Except String Nat) (fetchedDate : Option Int)
    (applyOutcome : Node → Except String Unit) (now : Nat)
    (queue : List ReplicationEntry) (log : List LogEntry) :
    (executeQuery node query isolationLevel failures present connOutcome
      storeOutcome fetchedDate applyOutcome now queue log).markerHeld
      = false
    ∧ (Event.lockAcquired ∈ (executeQuery node query isolationLevel
        failures present connOutcome storeOutcome fetchedDate
        applyOutcome now queue log).trace →
      (executeQuery node query isolationLevel failures present
        connOutcome storeOutcome fetchedDate applyOutcome now queue
        log).trace.count Event.markerReleased = 1
      ∧ ∃ pre post, (executeQuery node query isolationLevel failures
          present connOutcome storeOutcome fetchedDate applyOutcome now
          queue log).trace = pre ++ Event.markerReleased :: post
        ∧ Event.replicationRan ∉ post ∧ Event.storeApplied ∉ post) := by
  by_cases hoff : failures node
  · refine ⟨by simp [executeQuery, hoff], fun hmem => ?_⟩
    exfalso
    simp [executeQuery, hoff] at hmem
  · rw [Bool.not_eq_true] at hoff
    simp only [executeQuery, hoff, Bool.false_eq_true, if_false]
    cases connOutcome with
    | error e =>
      refine ⟨by simp [abortResult], fun hmem => ?_⟩
      exfalso
      simp [abortResult] at hmem
    | ok u =>
      cases hg : gatePhase (isWriteQuery query) (parseTransId query)
          present node now (isolationLevel.getD "READ_COMMITTED") with
      | error e =>
        refine ⟨by simp [abortResult], fun hmem => ?_⟩
        exfalso
        simp [abortResult] at hmem
      | ok pre =>
        by_cases hheld : (isWriteQuery query
            && (parseTransId query).isSome) = true
        · cases storeOutcome with
          | error e =>
            refine ⟨by simp [abortResult], fun hmem => ?_⟩
            have hpre : Event.lockAcquired ∈ pre := by
              simp [abortResult, hheld] at hmem
              tauto
            obtain ⟨hpre_eq, _⟩ := gatePhase_ok_lockAcquired
              (isWriteQuery query) (parseTransId query) present node now
              (isolationLevel.getD "READ_COMMITTED") pre hg hpre
            subst hpre_eq
            simp only [abortResult, hheld, if_true]
            refine ⟨by decide,
              ⟨[Event.lockAcquired, Event.storeApplied],
               [Event.logPushed], by decide, by decide, by decide⟩⟩
          | ok n =>
            refine ⟨by simp, fun hmem => ?_⟩
            have hpre : Event.lockAcquired ∈ pre := by
              simp [hheld] at hmem
              tauto
            obtain ⟨hpre_eq, _⟩ := gatePhase_ok_lockAcquired
              (isWriteQuery query) (parseTransId query) present node now
              (isolationLevel.getD "READ_COMMITTED") pre hg hpre
            subst hpre_eq
            simp only [hheld, if_true]
            refine ⟨by decide,
              ⟨[Event.lockAcquired, Event.storeApplied,
                Event.replicationRan], [Event.logPushed],
               by decide, by decide, by decide⟩⟩
        · cases storeOutcome with
          | error e =>
            refine ⟨by simp [abortResult], fun hmem => ?_⟩
            exfalso
            have hpre : Event.lockAcquired ∈ pre := by
              simp [abortResult, hheld] at hmem
              tauto
            obtain ⟨_, hc⟩ := gatePhase_ok_lockAcquired
              (isWriteQuery query) (parseTransId query) present node now
              (isolationLevel.getD "READ_COMMITTED") pre hg hpre
            exact hheld hc
          | ok n =>
            refine ⟨by simp, fun hmem => ?_⟩
            exfalso
            have hpre : Event.lockAcquired ∈ pre := by
              simp [hheld] at hmem
              tauto
            obtain ⟨_, hc⟩ := gatePhase_ok_lockAcquired
              (isWriteQuery query) (parseTransId query) present node now
              (isolationLevel.getD "READ_COMMITTED") pre hg hpre
            exact hheld hc

/-- Witness for C9 (amended): the concrete committed write releases its
marker exactly once, after replication. -/
theorem marker_release_discipline_witness :
    (executeQuery Node.node0
        "UPDATE trans SET balance = 9 WHERE trans_id = 4" none
        (fun _ => false) (fun _ => false) (.ok ()) (.ok 1) (some 0)
        (fun _ => Except.ok ()) 0 [] []).trace.count Event.markerReleased
      = 1
    ∧ ∃ pre post, (executeQuery Node.node0
        "UPDATE trans SET balance = 9 WHERE trans_id = 4" none
        (fun _ => false) (fun _ => false) (.ok ()) (.ok 1) (some 0)
        (fun _ => Except.ok ()) 0 [] []).trace
        = pre ++ Event.markerReleased :: post
      ∧ Event.replicationRan ∉ post ∧ Event.storeApplied ∉ post :=
  (marker_release_discipline Node.node0
    "UPDATE trans SET balance = 9 WHERE trans_id = 4" none
    (fun _ => false) (fun _ => false) (.ok ()) (.ok 1) (some 0)
    (fun _ => Except.ok ()) 0 [] []).2 (by decide)

/-- C10: an operation whose query text contains no
`WHERE trans_id = <number>` pattern (`parseTransId` returns `none`)
bypasses the Lock Manager and the Read Gate entirely: its result is
independent of the Active Write Marker schedule (so a write cannot fail
with LockTimeout and a read proceeds immediately under every isolation
level regardless of in-flight writes), no lock-acquisition or read-gate
admission event occurs, and no marker is installed. -/
theorem no_transid_bypasses_gate (node : Node) (query : String)
    (isolationLevel : Option String) (failures : Node → Bool)
    (present₁ present₂ : Nat → Bool) (connOutcome : Except String Unit)
    (storeOutcome : Except String Nat) (fetchedDate : Option Int)
    (applyOutcome : Node → Except String Unit) (now : Nat)
    (queue : List ReplicationEntry) (log : List LogEntry)
    (hp : parseTransId query = none) :
    (executeQuery node query isolationLevel failures present₁
        connOutcome storeOutcome fetchedDate applyOutcome now queue log
      = executeQuery node query isolationLevel failures present₂
        connOutcome storeOutcome fetchedDate applyOutcome now queue log)
    ∧ Event.lockAcquired ∉ (executeQuery node query isolationLevel
        failures present₁ connOutcome storeOutcome fetchedDate
        applyOutcome now queue log).trace
    ∧ Event.readAdmitted ∉ (executeQuery node query isolationLevel
        failures present₁ connOutcome storeOutcome fetchedDate
        applyOutcome now queue log).trace
    ∧ (executeQuery node query isolationLevel failures present₁
        connOutcome storeOutcome fetchedDate applyOutcome now queue
        log).markerHeld = false := by
  have hgate : ∀ p : Nat → Bool,
      gatePhase (isWriteQuery query) (parseTransId query) p node now
        (isolationLevel.getD "READ_COMMITTED") = .ok [] := by
    intro p
    simp [gatePhase, hp]
  by_cases hoff : failures node
  · simp [executeQuery, hoff]
  · rw [Bool.not_eq_true] at hoff
    simp only [executeQuery, hoff, Bool.false_eq_true, if_false]
    cases connOutcome with
    | error e => simp [abortResult]
    | ok u =>
      rw [hgate present₁, hgate present₂]
      cases storeOutcome with
      | error e => simp [abortResult, hp]
      | ok n => simp [hp]

/-- Witness for C10: an INSERT without a WHERE clause behaves
identically whether or not a concurrent marker exists. -/
theorem no_transid_bypasses_gate_witness :
    executeQuery Node.node0
        "INSERT INTO trans VALUES (99, 1, '1996-05-15', 10, 10)" none
        (fun _ => false) (fun _ => false) (.ok ()) (.ok 1) none
        (fun _ => Except.ok ()) 0 [] []
      = executeQuery Node.node0
        "INSERT INTO trans VALUES (99, 1, '1996-05-15', 10, 10)" none
        (fun _ => false) (fun _ => true) (.ok ()) (.ok 1) none
        (fun _ => Except.ok ()) 0 [] [] :=
  (no_transid_bypasses_gate Node.node0
    "INSERT INTO trans VALUES (99, 1, '1996-05-15', 10, 10)" none
    (fun _ => false) (fun _ => false) (fun _ => true) (.ok ()) (.ok 1)
    none (fun _ => Except.ok ()) 0 [] [] (by decide)).1

/-! ### Ledger status monotonicity -/

/-- The allowed single-step status transitions of a Replication Entry:
`pending → replicated`, `pending → failed`, and (via replay)
`failed → replicated`. -/
def statusStepAllowed (a b : ReplicationStatus) : Prop :=
  (a = .pending ∧ b = .replicated) ∨ (a = .pending ∧ b = .failed)
    ∨ (a = .failed ∧ b = .replicated)

/-- Reachability along allowed status transitions. -/
def statusReach : ReplicationStatus → ReplicationStatus → Prop :=
  Relation.ReflTransGen statusStepAllowed

/-- A ledger-mutating operation of the system: an eager replication run
(`replicateWrite`) or a recovery replay (`replayFailedReplications`). -/
inductive LedgerOp where
  | write (sourceNode : Node) (query : String) (fetchedDate : Option Int)
      (failures : Node → Bool) (applyOutcome : Node → Except String Unit)
      (now : Nat)
  | recover (node : Node) (outcome : Nat → Except String Unit) (now : Nat)

/-- The effect of one operation on the replication ledger. -/
def applyLedgerOp (q : List ReplicationEntry) :
    LedgerOp → List ReplicationEntry
  | .write s qr fd f a now => (replicateWrite s qr fd f a q now).1
  | .recover n o now => (replayFailedReplications n o now q).1

/-- The ledger after a sequence of operations. -/
def runLedgerOps (ops : List LedgerOp) (q : List ReplicationEntry) :
    List ReplicationEntry :=
  ops.foldl applyLedgerOp q

theorem isFailedFor_status {n : Node} {e : ReplicationEntry}
    (h : isFailedFor n e = true) : e.status = .failed := by
  simp only [isFailedFor, Bool.and_eq_true, beq_iff_eq] at h
  exact h.2

theorem statusReach_of_replicated {b : ReplicationStatus}
    (h : statusReach .replicated b) : b = .replicated := by
  induction h with
  | refl => rfl
  | tail _ hstep ih =>
    rw [ih] at hstep
    rcases hstep with ⟨h1, _⟩ | ⟨h1, _⟩ | ⟨h1, _⟩ <;> cases h1

theorem statusReach_of_failed {b : ReplicationStatus}
    (h : statusReach .failed b) : b = .failed ∨ b = .replicated := by
  induction h with
  | refl => exact Or.inl rfl
  | tail _ hstep ih =>
    rcases ih with ih | ih <;> rw [ih] at hstep <;>
      rcases hstep with ⟨h1, h2⟩ | ⟨h1, h2⟩ | ⟨h1, h2⟩ <;>
      first
        | exact Or.inr h2
        | cases h1

theorem statusReach_not_pending {a b : ReplicationStatus}
    (h : statusReach a b)
    (ha : a = .replicated ∨ a = .failed) :
    b = .replicated ∨ b = .failed := by
  rcases ha with ha | ha <;> subst ha
  · exact Or.inl (statusReach_of_replicated h)
  · exact (statusReach_of_failed h).symm.imp id id |>.symm |>.imp id id
      |>.elim (fun x => Or.inr x) (fun x => Or.inl x)

theorem applyLedgerOp_length (q : List ReplicationEntry) (op : LedgerOp) :
    q.length ≤ (applyLedgerOp q op).length := by
  cases op with
  | write s qr fd f a now =>
    simp only [applyLedgerOp, replicateWrite]
    by_cases hw : isWriteQuery qr <;> simp [hw]
  | recover n o now =>
    simp only [applyLedgerOp, replayFailedReplications]
    rw [replayQueue_length]

theorem applyLedgerOp_step (op : LedgerOp) (q : List ReplicationEntry)
    (i : Nat) (h : i < q.length) (h' : i < (applyLedgerOp q op).length) :
    statusReach (q.get ⟨i, h⟩).status
      ((applyLedgerOp q op).get ⟨i, h'⟩).status := by
  cases op with
  | write s qr fd f a now =>
    have hsame : (applyLedgerOp q (.write s qr fd f a now)).get ⟨i, h'⟩
        = q.get ⟨i, h⟩ := by
      by_cases hw : isWriteQuery qr
      · simp only [applyLedgerOp, replicateWrite, hw, Bool.not_true,
          Bool.false_eq_true, if_false, List.get_eq_getElem]
        exact List.getElem_append_left h
      · have hw' : isWriteQuery qr = false := by
          rwa [Bool.not_eq_true] at hw
        simp [applyLedgerOp, replicateWrite, hw']
    rw [hsame]
    exact Relation.ReflTransGen.refl
  | recover n o now =>
    have hget := replayQueue_get n o now q 0 i h h'
    rw [Nat.zero_add] at hget
    show statusReach (q.get ⟨i, h⟩).status
      ((replayQueue n o now q 0).get ⟨i, h'⟩).status
    rw [hget]
    by_cases hsel : isFailedFor n (q.get ⟨i, h⟩)
    · rw [if_pos hsel]
      cases ho : o (rankBefore n q i) with
      | ok u =>
        have hst : (q.get ⟨i, h⟩).status = .failed := isFailedFor_status hsel
        rw [hst]
        exact Relation.ReflTransGen.single
          (Or.inr (Or.inr ⟨rfl, by simp [replayedEntry]⟩))
      | error msg => exact Relation.ReflTransGen.refl
    · rw [if_neg hsel]
      exact Relation.ReflTransGen.refl

theorem applyLedgerOp_new (op : LedgerOp) (q : List ReplicationEntry)
    (j : Nat) (h' : j < (applyLedgerOp q op).length) (hge : q.length ≤ j) :
    ((applyLedgerOp q op).get ⟨j, h'⟩).status = .replicated
    ∨ ((applyLedgerOp q op).get ⟨j, h'⟩).status = .failed := by
  cases op with
  | recover n o now =>
    exfalso
    have hl : (applyLedgerOp q (.recover n o now)).length = q.length := by
      simp only [applyLedgerOp, replayFailedReplications]
      rw [replayQueue_length]
    omega
  | write s qr fd f a now =>
    by_cases hw : isWriteQuery qr
    · have hrun : applyLedgerOp q (.write s qr fd f a now)
          = q ++ (replicateLoop s qr f a now
              (replicationTargets s (resolvedRecordDate qr fd))
              q.length).1 := by
        simp only [applyLedgerOp, replicateWrite, hw, Bool.not_true,
          Bool.false_eq_true, if_false]
      have hmem : (applyLedgerOp q (.write s qr fd f a now)).get ⟨j, h'⟩
          ∈ (replicateLoop s qr f a now
              (replicationTargets s (resolvedRecordDate qr fd))
              q.length).1 := by
        have h'' : j < (q ++ (replicateLoop s qr f a now
            (replicationTargets s (resolvedRecordDate qr fd))
            q.length).1).length := by rw [← hrun]; exact h'
        have := @List.getElem_append_right _ q
          (replicateLoop s qr f a now
            (replicationTargets s (resolvedRecordDate qr fd))
            q.length).1 j hge h''
        simp only [List.get_eq_getElem, hrun]
        rw [this]
        exact List.getElem_mem _
      exact (replicateLoop_entry_spec s qr f a now _ q.length _ hmem).1
    · exfalso
      have hl : (applyLedgerOp q (.write s qr fd f a now)).length
          = q.length := by
        simp only [applyLedgerOp, replicateWrite, hw]
        simp
      omega

theorem runLedgerOps_spec (ops : List LedgerOp)
    (q : List ReplicationEntry) :
    q.length ≤ (runLedgerOps ops q).length
    ∧ (∀ i (h : i < q.length) (h' : i < (runLedgerOps ops q).length),
        statusReach (q.get ⟨i, h⟩).status
          ((runLedgerOps ops q).get ⟨i, h'⟩).status)
    ∧ (∀ j (h' : j < (runLedgerOps ops q).length), q.length ≤ j →
        ((runLedgerOps ops q).get ⟨j, h'⟩).status = .replicated
        ∨ ((runLedgerOps ops q).get ⟨j, h'⟩).status = .failed) := by
  induction ops generalizing q with
  | nil =>
    refine ⟨le_refl _, fun i h h' => Relation.ReflTransGen.refl,
      fun j h' hge => absurd h' ?_⟩
    simp only [runLedgerOps, List.foldl_nil] at h' ⊢
    omega
  | cons op rest ih =>
    obtain ⟨ih1, ih2, ih3⟩ := ih (applyLedgerOp q op)
    have hstep : runLedgerOps (op :: rest) q
        = runLedgerOps rest (applyLedgerOp q op) := rfl
    rw [hstep]
    refine ⟨le_trans (applyLedgerOp_length q op) ih1, ?_, ?_⟩
    · intro i h h'
      have hmid : i < (applyLedgerOp q op).length :=
        lt_of_lt_of_le h (applyLedgerOp_length q op)
      exact Relation.ReflTransGen.trans
        (applyLedgerOp_step op q i h hmid) (ih2 i hmid h')
    · intro j h' hge
      by_cases hmid : j < (applyLedgerOp q op).length
      · exact statusReach_not_pending (ih2 j hmid h')
          ((applyLedgerOp_new op q j hmid hge).imp id id)
      · exact ih3 j h' (Nat.le_of_not_lt hmid)

/-- C8: over any sequence of `replicateWrite` and
`replayFailedReplications` operations, every ledger entry's status moves
only along the allowed transitions (`pending→replicated`,
`pending→failed`, `failed→replicated`): the final status of any
pre-existing entry is reachable from its initial status via
`statusStepAllowed`; in particular an entry that is `replicated` stays
`replicated` forever (never `replicated→failed`, never back to
`pending`), a `failed` entry can only stay `failed` or become
`replicated`, and every entry the operations append enters the ledger
already resolved as `replicated` or `failed` (its transient `pending`
state never being visible in the ledger). -/
theorem ledger_status_monotonic (ops : List LedgerOp)
    (q : List ReplicationEntry) :
    q.length ≤ (runLedgerOps ops q).length
    ∧ (∀ i (h : i < q.length) (h' : i < (runLedgerOps ops q).length),
        statusReach (q.get ⟨i, h⟩).status
          ((runLedgerOps ops q).get ⟨i, h'⟩).status)
    ∧ (∀ i (h : i < q.length) (h' : i < (runLedgerOps ops q).length),
        (q.get ⟨i, h⟩).status = .replicated →
          ((runLedgerOps ops q).get ⟨i, h'⟩).status = .replicated)
    ∧ (∀ i (h : i < q.length) (h' : i < (runLedgerOps ops q).length),
        (q.get ⟨i, h⟩).status = .failed →
          ((runLedgerOps ops q).get ⟨i, h'⟩).status = .failed
          ∨ ((runLedgerOps ops q).get ⟨i, h'⟩).status = .replicated)
    ∧ (∀ j (h' : j < (runLedgerOps ops q).length), q.length ≤ j →
        ((runLedgerOps ops q).get ⟨j, h'⟩).status = .replicated
        ∨ ((runLedgerOps ops q).get ⟨j, h'⟩).status = .failed) := by
  obtain ⟨h1, h2, h3⟩ := runLedgerOps_spec ops q
  refine ⟨h1, h2, ?_, ?_, h3⟩
  · intro i h h' hrep
    have := h2 i h h'
    rw [hrep] at this
    exact statusReach_of_replicated this
  · intro i h h' hfail
    have := h2 i h h'
    rw [hfail] at this
    exact statusReach_of_failed this

/-- Witness for C8: a ledger holding one failed entry, run through a
recovery whose reapply succeeds — the entry's final status is reachable
from `failed` and is in fact `replicated`. -/
theorem ledger_status_monotonic_witness :
    statusReach ReplicationStatus.failed
      ((runLedgerOps [LedgerOp.recover Node.node1 (fun _ => Except.ok ())
          9] [staleFailedEntry]).get ⟨0, by decide⟩).status :=
  by
    have h := (ledger_status_monotonic
      [LedgerOp.recover Node.node1 (fun _ => Except.ok ()) 9]
      [staleFailedEntry]).2.1 0 (by decide) (by decide)
    simpa using h

end DistDB
